import Mathlib

/-!
Verification of the consolidation pipeline of
`ai-codebase-context-generator` (`main.py`, class `ProjectConsolidator`).

The backend method `_process_files` is embedded shallowly:

* a directory tree is the inductive `FS` (files with read results, and named
  subdirectories); `DirList` is its companion list type so that mutual
  structural recursion and induction are available;
* the first pass (`os.walk` with in-place pruning of `dirnames` and the
  suffix / exclude filter on file names) is `candidatesFS`;
* the second pass (the write loop) is `runLoop`, producing the output text,
  the running line total and the trace of status / progress callbacks;
* the whole method is `processFiles`, returning the callback trace, the
  output artifact (if the output file could be opened) and the terminal
  summary dictionary.

Machine reals never appear in the source logic except for the progress
fraction `processed / total` and the size `bytes / 1024`; both are exact in
the embedding (`ℚ`).
-/

/-- The result of attempting `open(file).read()` on one file: either the
decoded text (decode errors are substituted away by `errors='ignore'`, so
decoding itself never raises) or the message of the raised exception. -/
inductive ReadResult where
  | ok (content : String)
  | error (msg : String)
deriving DecidableEq, Repr

/-- One directory entry that is a plain file: its base name and what reading
it yields.  Names are base names (no path separator in them). -/
structure FileE where
  name : String
  content : ReadResult
deriving DecidableEq, Repr

mutual
/-- A directory tree: the files directly inside, and the named
subdirectories, in the order `os.walk` enumerates them. -/
inductive FS where
  | node (files : List FileE) (subdirs : DirList)
deriving DecidableEq, Repr

/-- The list of named subdirectories of a directory. -/
inductive DirList where
  | nil
  | cons (name : String) (d : FS) (rest : DirList)
deriving DecidableEq, Repr
end

/-- The run configuration: `include_ext` and `exclude_patterns` as the
`ProjectConsolidator` constructor receives them. -/
structure Config where
  include_ext : List String
  exclude_patterns : List String
deriving DecidableEq, Repr

/-- `os.path.join(dirpath, name)` relative to the root: the empty relative
prefix joins to the bare name (modelling `os.path.relpath` of the joined
path, with `/` as separator). -/
def joinPath (p n : String) : String :=
  if p = "" then n else p ++ "/" ++ n

/-- Python's `str.endswith`: exact, case-sensitive trailing match, modelled
character by character. -/
def pyEndsWith (s suffix : String) : Bool :=
  suffix.toList.isSuffixOf s.toList

/-- The file filter of the first pass, line 69 of `main.py`:
`any(filename.endswith(ext) for ext in self.include_ext) and filename not in
self.exclude_patterns`. -/
def isCandidate (cfg : Config) (name : String) : Bool :=
  (cfg.include_ext.any (fun ext => pyEndsWith name ext))
    && !(cfg.exclude_patterns.contains name)

/-- A selected file as the second pass consumes it: the path relative to the
root, the base name (used for the extension), and the read outcome. -/
structure Candidate where
  relpath : String
  name : String
  content : ReadResult
deriving DecidableEq, Repr

mutual
/-- First pass of `_process_files` (lines 64-71): walk top-down, prune
subdirectories whose name is in `exclude_patterns` before descending, and
collect every file whose name ends with an include suffix and is not itself
an exclude pattern.  `prefx` is the relative path of the directory being
visited (`""` at the root). -/
def candidatesFS (cfg : Config) (prefx : String) : FS → List Candidate
  | .node files subdirs =>
      files.filterMap (fun f =>
        if isCandidate cfg f.name then
          some ⟨joinPath prefx f.name, f.name, f.content⟩
        else none)
      ++ candidatesDL cfg prefx subdirs

/-- Descent over the subdirectory list: the pruning step
`dirnames[:] = [d for d in dirnames if d not in self.exclude_patterns]`
(line 66) drops excluded directories before they are ever visited. -/
def candidatesDL (cfg : Config) (prefx : String) : DirList → List Candidate
  | .nil => []
  | .cons n d rest =>
      (if cfg.exclude_patterns.contains n then []
       else candidatesFS cfg (joinPath prefx n) d)
      ++ candidatesDL cfg prefx rest
end

mutual
/-- Modelled from the spec: P1 (completeness).  The declarative selection the
spec states — a file appears exactly when its full name ends with a
configured suffix, is not itself named an exclude pattern, and no directory
on the path from the root down to it (the root itself excluded) is named an
exclude pattern.  `anc` carries the names of the ancestor directories
strictly below the root. -/
def specFilesFS (cfg : Config) (prefx : String) (anc : List String) :
    FS → List String
  | .node files subdirs =>
      files.filterMap (fun f =>
        if (cfg.include_ext.any (fun ext => pyEndsWith f.name ext))
            && !(cfg.exclude_patterns.contains f.name)
            && anc.all (fun a => !(cfg.exclude_patterns.contains a)) then
          some (joinPath prefx f.name)
        else none)
      ++ specFilesDL cfg prefx anc subdirs

/-- Modelled from the spec: companion of `specFilesFS` over subdirectory
lists; no pruning, every directory is visited and its name joins the
ancestor list. -/
def specFilesDL (cfg : Config) (prefx : String) (anc : List String) :
    DirList → List String
  | .nil => []
  | .cons n d rest =>
      specFilesFS cfg (joinPath prefx n) (n :: anc) d
      ++ specFilesDL cfg prefx anc rest
end

/-- The separator line, `"=" * 80` (lines 93 and 95 of `main.py`). -/
def sep80 : String := String.mk (List.replicate 80 '=')

/-- `os.path.splitext(path)[1].lstrip('.')` (line 98), computed on the base
name: the text after the last dot of the name, provided some character
before that dot is not itself a dot (Python's `splitext` gives no extension
to names made of leading dots only, such as `.bashrc`); the single leading
dot the extension carries is then stripped. -/
def splitLastDot : List Char → Option (List Char × List Char)
  | [] => none
  | c :: cs =>
      match splitLastDot cs with
      | some (b, a) => some (c :: b, a)
      | none => if c = '.' then some ([], cs) else none

/-- The fence tag of a file: see `splitLastDot`. -/
def extOf (name : String) : String :=
  match splitLastDot name.toList with
  | none => ""
  | some (b, a) => if b.all (fun c => c = '.') then "" else String.mk a

/-- `content.count('\n') + 1` (line 90): the line count attributed to one
successfully read file. -/
def countLines (content : String) : Nat :=
  content.toList.count '\n' + 1

/-- The six `outfile.write` calls of the success branch of the per-file
`try` (lines 93-101), one list element per call. -/
def fileWrites (relpath name content : String) : List String :=
  [ sep80 ++ "\n",
    "### FILE: " ++ relpath ++ "\n",
    sep80 ++ "\n",
    "```" ++ extOf name ++ "\n",
    content,
    "\n```\n\n" ]

/-- The text a successfully read file contributes to the output: the
concatenation of its six writes. -/
def fileBlock (relpath name content : String) : String :=
  String.join (fileWrites relpath name content)

/-- The inline annotation written by the per-file `except` branch
(line 104). -/
def errorAnnotation (relpath msg : String) : String :=
  "--- ERROR reading " ++ relpath ++ ": " ++ msg ++ " ---\n\n"

/-- The header written right after the output file opens (line 81), with
`rootName` the base name of the root directory. -/
def projectHeader (rootName : String) : String :=
  "--- Project Context for: " ++ rootName ++ " ---\n\n"

/-- What one candidate adds to the output file: its block when the read
succeeds, the inline annotation when it raises. -/
def blockFor (c : Candidate) : String :=
  match c.content with
  | .ok content => fileBlock c.relpath c.name content
  | .error e => errorAnnotation c.relpath e

/-- What one candidate adds to `total_lines`: lines are counted only inside
the `try`, right after a successful read (lines 90-91); a failed read adds
nothing. -/
def lineContribution (c : Candidate) : Nat :=
  match c.content with
  | .ok content => countLines content
  | .error _ => 0

/-- The concatenated blocks of a candidate list, in order. -/
def concatBlocks : List Candidate → String
  | [] => ""
  | c :: rest => blockFor c ++ concatBlocks rest

/-- The terminal summary dictionary built at lines 110-115 / 118: on success
it carries `files_processed`, `total_lines` and `output_size_kb` (the byte
size divided by 1024, exact here where the source uses a float); on failure
only the exception's message. -/
inductive Summary where
  | success (files_processed : Nat) (total_lines : Nat) (output_size_kb : ℚ)
  | error (message : String)
deriving DecidableEq, Repr

/-- The `files_processed` entry of a summary, when present. -/
def Summary.filesProcessed : Summary → Option Nat
  | .success n _ _ => some n
  | .error _ => none

/-- The `total_lines` entry of a summary, when present. -/
def Summary.totalLines : Summary → Option Nat
  | .success _ l _ => some l
  | .error _ => none

/-- The `output_size_kb` entry of a summary, when present. -/
def Summary.outputSizeKb : Summary → Option ℚ
  | .success _ _ q => some q
  | .error _ => none

/-- `True` exactly on the `Success` summaries. -/
def Summary.isSuccess : Summary → Bool
  | .success _ _ _ => true
  | .error _ => false

/-- One observable emission of the pipeline: a `status_callback` call, a
`progress_callback` call, the closing of the output file (the end of the
`with` block, line 108), or the `finished_callback` call (line 121). -/
inductive Event where
  | status (msg : String)
  | progress (value : ℚ)
  | closed
  | finished (s : Summary)
deriving DecidableEq, Repr

/-- `True` exactly on `finished` events. -/
def Event.isFinished : Event → Bool
  | .finished _ => true
  | _ => false

/-- The progress fractions of a trace, in emission order. -/
def progressValues (t : List Event) : List ℚ :=
  t.filterMap (fun e =>
    match e with
    | .progress v => some v
    | _ => none)

/-- Whether opening the output file for writing (line 79) succeeds; on
failure it raises with a message, caught by the outer `except`. -/
inductive OpenResult where
  | ok
  | error (msg : String)
deriving DecidableEq, Repr

/-- `True` exactly when the output file opened. -/
def OpenResult.isOk : OpenResult → Bool
  | .ok => true
  | .error _ => false

/-- The write loop, lines 83-107: for each candidate, a status update, the
block (or annotation) appended to the output, the line count accumulated,
`processed_files` incremented and the fraction `processed / total`
reported.  `k` is the number of files already processed when the loop
reaches this list.  Returns the appended text, the lines added, and the
emitted events. -/
def runLoop (total : Nat) : Nat → List Candidate → String × Nat × List Event
  | _, [] => ("", 0, [])
  | k, c :: rest =>
      let r := runLoop total (k + 1) rest
      (blockFor c ++ r.1,
       lineContribution c + r.2.1,
       .status ("Processing: " ++ c.relpath)
         :: .progress (((k : ℚ) + 1) / (total : ℚ)) :: r.2.2)

/-- The outcome of one run: the emitted callback events in order, the
output artifact (absent when the output file never opened), and the
terminal summary — the value `finished_callback` receives. -/
structure RunResult where
  trace : List Event
  artifact : Option String
  summary : Summary
deriving DecidableEq, Repr

/-- `_process_files` (lines 58-121) end to end: scan and count (first
pass), announce the count, open the output; on success write the project
header and every candidate's block while reporting progress, measure the
file, and finish with a `Success` summary; if opening raised, finish with
an `Error` summary carrying the message.  `rootName` is
`os.path.basename(self.root_dir)`. -/
def processFiles (rootName : String) (tree : FS) (cfg : Config)
    (openResult : OpenResult) : RunResult :=
  let cands := candidatesFS cfg "" tree
  let total := cands.length
  let preTrace : List Event :=
    [.status "Starting scan...",
     .status ("Found " ++ toString total ++ " files to process.")]
  match openResult with
  | .error e =>
      { trace := preTrace ++ [.finished (.error e)],
        artifact := none,
        summary := .error e }
  | .ok =>
      let r := runLoop total 0 cands
      let artifact := projectHeader rootName ++ r.1
      let summary :=
        Summary.success total r.2.1 ((artifact.utf8ByteSize : ℚ) / 1024)
      { trace := preTrace ++ r.2.2 ++ [.closed, .finished summary],
        artifact := some artifact,
        summary := summary }

/-- The fractions `(k+1)/total, (k+2)/total, …` reported by `n` further
loop iterations after `k` files are already done. -/
def fractionsFrom (total : ℚ) : Nat → Nat → List ℚ
  | _, 0 => []
  | k, n + 1 => ((k : ℚ) + 1) / total :: fractionsFrom total (k + 1) n

/-- Whether a read attempt succeeded. -/
def ReadResult.isOk : ReadResult → Bool
  | .ok _ => true
  | .error _ => false

mutual
/-- Content-only surgery on trees: replace every file's read outcome by
`g` of it, keeping every name and the whole shape.  Injecting a read
failure into one file is an instance.  See `candidatesFS_mapContents`. -/
def mapContentsFS (g : String → ReadResult → ReadResult) : FS → FS
  | .node files subdirs =>
      .node (files.map (fun f => ⟨f.name, g f.name f.content⟩))
        (mapContentsDL g subdirs)

/-- Companion of `mapContentsFS` on subdirectory lists. -/
def mapContentsDL (g : String → ReadResult → ReadResult) : DirList → DirList
  | .nil => .nil
  | .cons n d rest => .cons n (mapContentsFS g d) (mapContentsDL g rest)
end

/-- A default config for the concrete runs below: include `.py` files,
exclude `build` and `.git` directories or files. -/
def pyCfg : Config := ⟨[".py"], ["build", ".git"]⟩

/-- A small project tree: two files at the root, a `src` subdirectory and a
`build` subdirectory that the walk must prune. -/
def demoTree : FS :=
  .node [⟨"app.py", .ok "print(1)\n"⟩, ⟨"README", .ok "hi"⟩]
    (.cons "src" (.node [⟨"main.py", .ok "a\nb\n"⟩] .nil)
      (.cons "build" (.node [⟨"skip.py", .ok "x"⟩] .nil) .nil))

/-- A flat tree whose first candidate raises on read and whose second one
reads fine. -/
def failTree : FS :=
  .node [⟨"bad.py", .error "Permission denied"⟩, ⟨"good.py", .ok "ok\n"⟩]
    .nil

/-- A flat tree with a single one-byte candidate. -/
def oneTree : FS := .node [⟨"a.py", .ok "x"⟩] .nil

/-- A config whose suffix list matches nothing in `demoTree`. -/
def mdCfg : Config := ⟨[".md"], []⟩

theorem runLoop_fst (total : Nat) :
    ∀ (k : Nat) (cands : List Candidate),
      (runLoop total k cands).1 = concatBlocks cands
  | _, [] => rfl
  | k, c :: rest => by
      simp [runLoop, concatBlocks, runLoop_fst total (k + 1) rest]

theorem runLoop_lines (total : Nat) :
    ∀ (k : Nat) (cands : List Candidate),
      (runLoop total k cands).2.1 = (cands.map lineContribution).sum
  | _, [] => rfl
  | k, c :: rest => by
      simp [runLoop, runLoop_lines total (k + 1) rest]

theorem runLoop_progress (total : Nat) :
    ∀ (k : Nat) (cands : List Candidate),
      progressValues (runLoop total k cands).2.2 =
        fractionsFrom (total : ℚ) k cands.length
  | _, [] => rfl
  | k, c :: rest => by
      simp [runLoop, progressValues, fractionsFrom]
      exact runLoop_progress total (k + 1) rest

theorem runLoop_noFinished (total : Nat) :
    ∀ (k : Nat) (cands : List Candidate),
      ∀ e ∈ (runLoop total k cands).2.2, e.isFinished = false
  | _, [], _, h => by simp [runLoop] at h
  | k, c :: rest, e, h => by
      simp [runLoop] at h
      rcases h with h | h | h
      · simp [h, Event.isFinished]
      · simp [h, Event.isFinished]
      · exact runLoop_noFinished total (k + 1) rest e h

mutual
theorem specFilesFS_of_badAnc (cfg : Config) :
    (t : FS) → ∀ (prefx : String) (anc : List String),
      anc.all (fun a => !(cfg.exclude_patterns.contains a)) = false →
      specFilesFS cfg prefx anc t = []
  | .node files subdirs, prefx, anc, h => by
      rw [specFilesFS, specFilesDL_of_badAnc cfg subdirs prefx anc h,
        List.append_nil]
      refine List.filterMap_eq_nil_iff.mpr (fun f _ => ?_)
      rw [h, Bool.and_false, if_neg (by simp)]

theorem specFilesDL_of_badAnc (cfg : Config) :
    (ds : DirList) → ∀ (prefx : String) (anc : List String),
      anc.all (fun a => !(cfg.exclude_patterns.contains a)) = false →
      specFilesDL cfg prefx anc ds = []
  | .nil, _, _, _ => rfl
  | .cons n d rest, prefx, anc, h => by
      have h' : (n :: anc).all (fun a => !(cfg.exclude_patterns.contains a))
          = false := by simp_all
      rw [specFilesDL,
        specFilesFS_of_badAnc cfg d (joinPath prefx n) (n :: anc) h',
        specFilesDL_of_badAnc cfg rest prefx anc h, List.append_nil]
end

mutual
theorem specFilesFS_eq_candidates (cfg : Config) :
    (t : FS) → ∀ (prefx : String) (anc : List String),
      anc.all (fun a => !(cfg.exclude_patterns.contains a)) = true →
      specFilesFS cfg prefx anc t =
        (candidatesFS cfg prefx t).map Candidate.relpath
  | .node files subdirs, prefx, anc, h => by
      rw [specFilesFS, candidatesFS, List.map_append, List.map_filterMap,
        ← specFilesDL_eq_candidates cfg subdirs prefx anc h]
      congr 1
      refine List.filterMap_congr (fun f _ => ?_)
      rw [h, Bool.and_true]
      by_cases hc : ((cfg.include_ext.any (fun ext => pyEndsWith f.name ext))
          && !(cfg.exclude_patterns.contains f.name)) = true
      · rw [if_pos hc, if_pos (by rw [isCandidate]; exact hc)]
        rfl
      · rw [if_neg hc, if_neg (by rw [isCandidate]; exact hc)]
        rfl

theorem specFilesDL_eq_candidates (cfg : Config) :
    (ds : DirList) → ∀ (prefx : String) (anc : List String),
      anc.all (fun a => !(cfg.exclude_patterns.contains a)) = true →
      specFilesDL cfg prefx anc ds =
        (candidatesDL cfg prefx ds).map Candidate.relpath
  | .nil, _, _, _ => rfl
  | .cons n d rest, prefx, anc, h => by
      by_cases hn : cfg.exclude_patterns.contains n = true
      · have h' : (n :: anc).all (fun a => !(cfg.exclude_patterns.contains a))
            = false := by rw [List.all_cons, hn]; rfl
        rw [specFilesDL, candidatesDL, if_pos hn, List.nil_append,
          specFilesFS_of_badAnc cfg d (joinPath prefx n) (n :: anc) h',
          specFilesDL_eq_candidates cfg rest prefx anc h, List.nil_append]
      · have hf : cfg.exclude_patterns.contains n = false := by
          cases hcc : cfg.exclude_patterns.contains n
          · rfl
          · exact absurd hcc hn
        have h' : (n :: anc).all (fun a => !(cfg.exclude_patterns.contains a))
            = true := by rw [List.all_cons, hf, h]; rfl
        rw [specFilesDL, candidatesDL, if_neg hn, List.map_append,
          specFilesFS_eq_candidates cfg d (joinPath prefx n) (n :: anc) h',
          specFilesDL_eq_candidates cfg rest prefx anc h]
end

theorem fractionsFrom_bounds (total : Nat) :
    ∀ (k n : Nat), k + n ≤ total →
      ∀ v ∈ fractionsFrom (total : ℚ) k n, 0 ≤ v ∧ v ≤ 1
  | _, 0, _, v, hv => by simp [fractionsFrom] at hv
  | k, n + 1, h, v, hv => by
      rw [fractionsFrom, List.mem_cons] at hv
      rcases hv with rfl | hv
      · have htot : 0 < total := by omega
        have htq : (0 : ℚ) < (total : ℚ) := by exact_mod_cast htot
        refine ⟨by positivity, ?_⟩
        rw [div_le_one htq]
        exact_mod_cast (by omega : k + 1 ≤ total)
      · exact fractionsFrom_bounds total (k + 1) n (by omega) v hv

theorem fractionsFrom_chain (total : Nat) :
    ∀ (k n : Nat), List.Chain' (· ≤ ·) (fractionsFrom (total : ℚ) k n)
  | _, 0 => by simp [fractionsFrom]
  | k, n + 1 => by
      rw [fractionsFrom, List.chain'_cons']
      refine ⟨?_, fractionsFrom_chain total (k + 1) n⟩
      intro b hb
      cases n with
      | zero => simp [fractionsFrom] at hb
      | succ m =>
          rw [fractionsFrom, List.head?_cons, Option.mem_some_iff] at hb
          subst hb
          rcases Nat.eq_zero_or_pos total with h0 | hpos
          · simp [h0]
          · have htq : (0 : ℚ) < (total : ℚ) := by exact_mod_cast hpos
            rw [div_le_div_iff_of_pos_right htq]
            push_cast
            linarith

theorem fractionsFrom_getLast (total : Nat) :
    ∀ (k n : Nat), 0 < n → k + n = total →
      (fractionsFrom (total : ℚ) k n).getLast? = some 1
  | k, 1, _, h => by
      have hne : ((total : ℚ)) ≠ 0 := by
        have : 0 < total := by omega
        exact_mod_cast this.ne'
      have hk : ((k : ℚ) + 1) = (total : ℚ) := by exact_mod_cast (by omega : k + 1 = total)
      simp [fractionsFrom, hk, div_self hne]
  | k, n + 2, _, h => by
      rw [fractionsFrom, fractionsFrom, List.getLast?_cons_cons]
      exact fractionsFrom_getLast total (k + 1) (n + 1) (by omega) (by omega)

theorem processFiles_ok_artifact (rootName : String) (tree : FS) (cfg : Config) :
    (processFiles rootName tree cfg .ok).artifact =
      some (projectHeader rootName ++ concatBlocks (candidatesFS cfg "" tree)) := by
  simp only [processFiles]
  rw [runLoop_fst]

theorem processFiles_ok_filesProcessed (rootName : String) (tree : FS) (cfg : Config) :
    (processFiles rootName tree cfg .ok).summary.filesProcessed =
      some (candidatesFS cfg "" tree).length := by
  simp only [processFiles, Summary.filesProcessed]

theorem processFiles_ok_totalLines (rootName : String) (tree : FS) (cfg : Config) :
    (processFiles rootName tree cfg .ok).summary.totalLines =
      some (((candidatesFS cfg "" tree).map lineContribution).sum) := by
  simp only [processFiles, Summary.totalLines]
  rw [runLoop_lines]

theorem processFiles_ok_isSuccess (rootName : String) (tree : FS) (cfg : Config) :
    (processFiles rootName tree cfg .ok).summary.isSuccess = true := by
  simp only [processFiles, Summary.isSuccess]

theorem processFiles_ok_progress (rootName : String) (tree : FS) (cfg : Config) :
    progressValues (processFiles rootName tree cfg .ok).trace =
      fractionsFrom ((candidatesFS cfg "" tree).length : ℚ) 0
        (candidatesFS cfg "" tree).length := by
  simp only [processFiles, progressValues, List.filterMap_append,
    List.filterMap_cons, List.filterMap_nil]
  rw [← progressValues, runLoop_progress]
  simp

/-- Claim C1: the set of files whose blocks appear in the output equals
exactly the set of files whose full name ends with one of the include
suffixes (exact, case-sensitive trailing match), is not exactly equal to an
exclude pattern, and is not nested at any depth under a directory named an
exclude pattern — pruning excluded directories before descent.  The
traversal's candidate list coincides (relative path for relative path, in
order, hence also as a set) with the declarative spec-side selection, and
the output is the header followed by exactly these files' blocks. -/
theorem c1_completeness (rootName : String) (cfg : Config) (tree : FS) :
    (candidatesFS cfg "" tree).map Candidate.relpath =
      specFilesFS cfg "" [] tree ∧
    (processFiles rootName tree cfg .ok).artifact =
      some (projectHeader rootName ++ concatBlocks (candidatesFS cfg "" tree)) :=
  ⟨(specFilesFS_eq_candidates cfg tree "" [] rfl).symm,
   processFiles_ok_artifact rootName tree cfg⟩

/-- Claim C2: each successfully read file's block is, byte for byte, a
separator of exactly 80 `=` characters and a newline, the header line
`### FILE: <relativePath>`, the separator again, the opening fence tagged
with the extension without its leading dot (empty when there is none), the
raw contents, then a newline, the closing fence and one blank line; and the
artifact begins with the single header line naming the root directory's
base name (followed by a blank line). -/
theorem c2_blockFormat (rootName rel name content : String) (cfg : Config)
    (tree : FS) :
    sep80.toList = List.replicate 80 '=' ∧
    fileBlock rel name content =
      sep80 ++ "\n" ++ ("### FILE: " ++ rel ++ "\n") ++ (sep80 ++ "\n")
        ++ ("```" ++ extOf name ++ "\n") ++ content ++ "\n```\n\n" ∧
    extOf "app.py" = "py" ∧
    extOf "Makefile" = "" ∧
    ∃ rest, (processFiles rootName tree cfg .ok).artifact =
      some (("--- Project Context for: " ++ rootName ++ " ---\n\n") ++ rest) := by
  refine ⟨rfl, ?_, by decide, by decide,
    concatBlocks (candidatesFS cfg "" tree), ?_⟩
  · simp [fileBlock, fileWrites, String.join, String.append_assoc,
      String.append_empty]
  · exact processFiles_ok_artifact rootName tree cfg

theorem fractionsFrom_length (total : ℚ) :
    ∀ (k n : Nat), (fractionsFrom total k n).length = n
  | _, 0 => rfl
  | k, n + 1 => by
      simp [fractionsFrom, fractionsFrom_length total (k + 1) n]

mutual
theorem candidatesFS_mapContents (cfg : Config)
    (g : String → ReadResult → ReadResult) :
    (t : FS) → ∀ (prefx : String),
      (candidatesFS cfg prefx (mapContentsFS g t)).map
          (fun c => (c.relpath, c.name)) =
        (candidatesFS cfg prefx t).map (fun c => (c.relpath, c.name))
  | .node files subdirs, prefx => by
      rw [mapContentsFS, candidatesFS, candidatesFS, List.map_append,
        List.map_append, candidatesDL_mapContents cfg g subdirs prefx]
      congr 1
      rw [List.filterMap_map, List.map_filterMap, List.map_filterMap]
      refine List.filterMap_congr (fun f _ => ?_)
      simp only [Function.comp]
      by_cases hc : isCandidate cfg f.name = true
      · rw [if_pos hc, if_pos hc]
        rfl
      · rw [if_neg hc, if_neg hc]

theorem candidatesDL_mapContents (cfg : Config)
    (g : String → ReadResult → ReadResult) :
    (ds : DirList) → ∀ (prefx : String),
      (candidatesDL cfg prefx (mapContentsDL g ds)).map
          (fun c => (c.relpath, c.name)) =
        (candidatesDL cfg prefx ds).map (fun c => (c.relpath, c.name))
  | .nil, _ => rfl
  | .cons n d rest, prefx => by
      rw [mapContentsDL, candidatesDL, candidatesDL, List.map_append,
        List.map_append, candidatesDL_mapContents cfg g rest prefx]
      congr 1
      by_cases hn : cfg.exclude_patterns.contains n = true
      · rw [if_pos hn, if_pos hn]
      · rw [if_neg hn, if_neg hn,
          candidatesFS_mapContents cfg g d (joinPath prefx n)]
end

/-- Claim C3 (counterexample): in a run over `failTree` with `pyCfg`,
exactly one of the two candidates reads successfully, yet the Success
summary reports `files_processed = 2`: `processed_files += 1` sits outside
the per-file `try` (line 106 of `main.py`), so a failed read is still
counted, contradicting the claim that `filesProcessed` excludes files whose
read failed. -/
theorem c3_counterexample :
    ((candidatesFS pyCfg "" failTree).countP (fun c => c.content.isOk)) = 1 ∧
    (processFiles "proj" failTree pyCfg .ok).summary.filesProcessed =
      some 2 := by
  decide

/-- Claim C3 (amended): a per-file read error is recovered locally — the
inline annotation takes the place of the file's block and the run continues
— and progress advances for the failed file; but the `files_processed`
count in the Success summary does NOT exclude failed reads: it counts every
attempted candidate, because the increment sits outside the per-file
`try`. -/
theorem c3_amended (rootName : String) (cfg : Config) (tree : FS) :
    (processFiles rootName tree cfg .ok).summary.filesProcessed =
      some (candidatesFS cfg "" tree).length ∧
    (processFiles rootName tree cfg .ok).artifact =
      some (projectHeader rootName ++ concatBlocks (candidatesFS cfg "" tree)) ∧
    (∀ c ∈ candidatesFS cfg "" tree, ∀ e, c.content = .error e →
      blockFor c = errorAnnotation c.relpath e) ∧
    (progressValues (processFiles rootName tree cfg .ok).trace).length =
      (candidatesFS cfg "" tree).length := by
  refine ⟨processFiles_ok_filesProcessed rootName tree cfg,
    processFiles_ok_artifact rootName tree cfg,
    fun c _ e he => by rw [blockFor, he],
    ?_⟩
  rw [processFiles_ok_progress, fractionsFrom_length]

/-- Witness for the amended C3, on the concrete run whose first candidate
fails to read. -/
theorem c3_amended_witness :
    (processFiles "proj" failTree pyCfg .ok).summary.filesProcessed =
      some (candidatesFS pyCfg "" failTree).length ∧
    (processFiles "proj" failTree pyCfg .ok).artifact =
      some (projectHeader "proj" ++ concatBlocks (candidatesFS pyCfg "" failTree)) ∧
    (∀ c ∈ candidatesFS pyCfg "" failTree, ∀ e, c.content = .error e →
      blockFor c = errorAnnotation c.relpath e) ∧
    (progressValues (processFiles "proj" failTree pyCfg .ok).trace).length =
      (candidatesFS pyCfg "" failTree).length :=
  c3_amended "proj" pyCfg failTree

set_option maxRecDepth 4000 in
/-- Claim C4 (counterexample): on the one-candidate run over `oneTree` the
size field of the Success summary is not the artifact's size in bytes — the
code stores `os.path.getsize(...) / 1024` under `output_size_kb`
(lines 109-114 of `main.py`), not an integer `outputSizeBytes`. -/
theorem c4_counterexample :
    ((processFiles "proj" oneTree pyCfg .ok).artifact.getD "").utf8ByteSize
      = 225 ∧
    (processFiles "proj" oneTree pyCfg .ok).summary.outputSizeKb ≠
      some (225 : ℚ) := by
  refine ⟨by decide, ?_⟩
  have hq : (processFiles "proj" oneTree pyCfg .ok).summary.outputSizeKb
      = some (((projectHeader "proj"
          ++ (runLoop (candidatesFS pyCfg "" oneTree).length 0
              (candidatesFS pyCfg "" oneTree)).1).utf8ByteSize : ℚ) / 1024) := by
    simp only [processFiles, Summary.outputSizeKb]
  rw [hq, show (projectHeader "proj"
      ++ (runLoop (candidatesFS pyCfg "" oneTree).length 0
          (candidatesFS pyCfg "" oneTree)).1).utf8ByteSize = 225 from by decide]
  intro h
  rw [Option.some_inj] at h
  norm_num at h

/-- Claim C4 (amended): the Success summary's size field is
`output_size_kb`: the generated artifact's byte size divided by 1024, a
non-negative rational (a float in the source), alongside
`files_processed` and `total_lines` — not an integer count of bytes. -/
theorem c4_amended (rootName : String) (cfg : Config) (tree : FS) :
    ∃ A, (processFiles rootName tree cfg .ok).artifact = some A ∧
      (processFiles rootName tree cfg .ok).summary.outputSizeKb =
        some ((A.utf8ByteSize : ℚ) / 1024) ∧
      0 ≤ ((A.utf8ByteSize : ℚ) / 1024) := by
  refine ⟨projectHeader rootName
    ++ (runLoop (candidatesFS cfg "" tree).length 0
        (candidatesFS cfg "" tree)).1, ?_, ?_, by positivity⟩
  · simp only [processFiles]
  · simp only [processFiles, Summary.outputSizeKb]

/-- Claim C5: a successfully read file contributes
`(count of line-break characters) + 1` to the line total — an empty file
contributes 1, content `"a\nb\n"` contributes 3 — and `total_lines` in the
Success summary is the sum of the contributions over the candidates (a
failed read contributes 0, since counting happens after the read inside the
per-file `try`). -/
theorem c5_lineCount (rootName : String) (cfg : Config) (tree : FS) :
    countLines "" = 1 ∧
    countLines "a\nb\n" = 3 ∧
    (∀ content : String, lineContribution ⟨"f.py", "f.py", .ok content⟩ =
      content.toList.count '\n' + 1) ∧
    (processFiles rootName tree cfg .ok).summary.totalLines =
      some (((candidatesFS cfg "" tree).map lineContribution).sum) :=
  ⟨rfl, by decide, fun _ => rfl, processFiles_ok_totalLines rootName tree cfg⟩

/-- Claim C6: a run with zero candidate files still completes successfully:
`files_processed = 0`, `total_lines = 0`, the artifact holds only the
project header line, and no progress fraction is ever reported — the
division `processed / total` sits inside the per-file loop, which never
executes, so the `0 / 0` case is a no-op rather than a fault. -/
theorem c6_emptyRun (rootName : String) (cfg : Config) (tree : FS)
    (h : candidatesFS cfg "" tree = []) :
    (processFiles rootName tree cfg .ok).summary.filesProcessed = some 0 ∧
    (processFiles rootName tree cfg .ok).summary.totalLines = some 0 ∧
    (processFiles rootName tree cfg .ok).artifact =
      some (projectHeader rootName) ∧
    progressValues (processFiles rootName tree cfg .ok).trace = [] := by
  refine ⟨?_, ?_, ?_, ?_⟩
  · rw [processFiles_ok_filesProcessed, h]
    rfl
  · rw [processFiles_ok_totalLines, h]
    rfl
  · rw [processFiles_ok_artifact, h]
    simp [concatBlocks, String.append_empty]
  · rw [processFiles_ok_progress, h]
    rfl

/-- Witness for C6: `demoTree` holds no `.md` file, so the `mdCfg` run has
zero candidates and the conclusion holds concretely. -/
theorem c6_emptyRun_witness :
    candidatesFS mdCfg "" demoTree = [] ∧
    ((processFiles "proj" demoTree mdCfg .ok).summary.filesProcessed = some 0 ∧
     (processFiles "proj" demoTree mdCfg .ok).summary.totalLines = some 0 ∧
     (processFiles "proj" demoTree mdCfg .ok).artifact =
       some (projectHeader "proj") ∧
     progressValues (processFiles "proj" demoTree mdCfg .ok).trace = []) :=
  ⟨by decide, c6_emptyRun "proj" mdCfg demoTree (by decide)⟩

/-- Claim C7: a read failure is isolated to its own file — the run's
summary stays `Success`, the output is the header plus every candidate's
contribution in order, a successfully read candidate always contributes its
full block, a failing one contributes exactly the inline annotation, and
changing read outcomes (e.g. injecting a failure for one file) never adds
or removes candidates. -/
theorem c7_isolation (rootName : String) (cfg : Config) (tree : FS) :
    (processFiles rootName tree cfg .ok).summary.isSuccess = true ∧
    (processFiles rootName tree cfg .ok).artifact =
      some (projectHeader rootName ++ concatBlocks (candidatesFS cfg "" tree)) ∧
    (∀ c ∈ candidatesFS cfg "" tree, ∀ s, c.content = .ok s →
      blockFor c = fileBlock c.relpath c.name s) ∧
    (∀ c ∈ candidatesFS cfg "" tree, ∀ e, c.content = .error e →
      blockFor c = errorAnnotation c.relpath e) ∧
    (∀ g : String → ReadResult → ReadResult,
      (candidatesFS cfg "" (mapContentsFS g tree)).map
          (fun c => (c.relpath, c.name)) =
        (candidatesFS cfg "" tree).map (fun c => (c.relpath, c.name))) :=
  ⟨processFiles_ok_isSuccess rootName tree cfg,
   processFiles_ok_artifact rootName tree cfg,
   fun c _ s hs => by rw [blockFor, hs],
   fun c _ e he => by rw [blockFor, he],
   fun g => candidatesFS_mapContents cfg g tree ""⟩

/-- Witness for C7 on the run whose first candidate fails to read. -/
theorem c7_isolation_witness :
    (processFiles "proj" failTree pyCfg .ok).summary.isSuccess = true ∧
    (processFiles "proj" failTree pyCfg .ok).artifact =
      some (projectHeader "proj" ++ concatBlocks (candidatesFS pyCfg "" failTree)) ∧
    (∀ c ∈ candidatesFS pyCfg "" failTree, ∀ s, c.content = .ok s →
      blockFor c = fileBlock c.relpath c.name s) ∧
    (∀ c ∈ candidatesFS pyCfg "" failTree, ∀ e, c.content = .error e →
      blockFor c = errorAnnotation c.relpath e) ∧
    (∀ g : String → ReadResult → ReadResult,
      (candidatesFS pyCfg "" (mapContentsFS g failTree)).map
          (fun c => (c.relpath, c.name)) =
        (candidatesFS pyCfg "" failTree).map (fun c => (c.relpath, c.name))) :=
  c7_isolation "proj" pyCfg failTree

/-- Claim C8: across one (successful) run the reported progress fractions
are non-decreasing, every one of them lies in `[0, 1]`, and when the
candidate count is positive the last reported value is exactly `1`. -/
theorem c8_progress (rootName : String) (cfg : Config) (tree : FS) :
    List.Chain' (· ≤ ·)
      (progressValues (processFiles rootName tree cfg .ok).trace) ∧
    (∀ v ∈ progressValues (processFiles rootName tree cfg .ok).trace,
      0 ≤ v ∧ v ≤ 1) ∧
    (0 < (candidatesFS cfg "" tree).length →
      (progressValues (processFiles rootName tree cfg .ok).trace).getLast? =
        some 1) := by
  rw [processFiles_ok_progress]
  exact ⟨fractionsFrom_chain _ 0 _,
    fun v hv => fractionsFrom_bounds _ 0 _ (by omega) v hv,
    fun h => fractionsFrom_getLast _ 0 _ h (by omega)⟩

/-- Witness for C8 on the `demoTree` run (two candidates). -/
theorem c8_progress_witness :
    List.Chain' (· ≤ ·)
      (progressValues (processFiles "proj" demoTree pyCfg .ok).trace) ∧
    (∀ v ∈ progressValues (processFiles "proj" demoTree pyCfg .ok).trace,
      0 ≤ v ∧ v ≤ 1) ∧
    (0 < (candidatesFS pyCfg "" demoTree).length →
      (progressValues (processFiles "proj" demoTree pyCfg .ok).trace).getLast? =
        some 1) :=
  c8_progress "proj" pyCfg demoTree

/-- Claim C9: only a `Success` or an `Error` summary ever leaves the
pipeline, and the finished notification is the single `finished` event of
the run's trace, delivered last — strictly after the output file was
written and closed on the success path (the `closed` event precedes it), or
directly after the run-level failure. -/
theorem c9_terminal (rootName : String) (cfg : Config) (tree : FS)
    (openResult : OpenResult) :
    ((∃ n l q, (processFiles rootName tree cfg openResult).summary =
        .success n l q) ∨
      (∃ m, (processFiles rootName tree cfg openResult).summary = .error m)) ∧
    ∃ t, (processFiles rootName tree cfg openResult).trace =
        t ++ [.finished (processFiles rootName tree cfg openResult).summary] ∧
      (∀ e ∈ t, e.isFinished = false) ∧
      (openResult.isOk = true → Event.closed ∈ t) := by
  constructor
  · cases hs : (processFiles rootName tree cfg openResult).summary with
    | success n l q => exact Or.inl ⟨n, l, q, rfl⟩
    | error m => exact Or.inr ⟨m, rfl⟩
  cases openResult with
  | error e =>
      refine ⟨[.status "Starting scan...",
        .status ("Found " ++ toString (candidatesFS cfg "" tree).length
          ++ " files to process.")], ?_, ?_, ?_⟩
      · simp [processFiles]
      · intro ev hev
        rcases List.mem_cons.mp hev with rfl | hev
        · rfl
        · rcases List.mem_cons.mp hev with rfl | hev
          · rfl
          · exact absurd hev (List.not_mem_nil ev)
      · intro h
        exact absurd h (by simp [OpenResult.isOk])
  | ok =>
      refine ⟨[.status "Starting scan...",
          .status ("Found " ++ toString (candidatesFS cfg "" tree).length
            ++ " files to process.")]
        ++ (runLoop (candidatesFS cfg "" tree).length 0
            (candidatesFS cfg "" tree)).2.2
        ++ [.closed], ?_, ?_, ?_⟩
      · simp [processFiles]
      · intro ev hev
        simp only [List.append_assoc, List.mem_append, List.mem_cons,
          List.not_mem_nil, or_false] at hev
        rcases hev with (rfl | rfl) | hev | rfl
        · rfl
        · rfl
        · exact runLoop_noFinished _ 0 _ ev hev
        · rfl
      · intro _
        simp

/-- Witness for C9 on a concrete successful open. -/
theorem c9_terminal_witness :
    ((∃ n l q, (processFiles "proj" failTree pyCfg .ok).summary =
        .success n l q) ∨
      (∃ m, (processFiles "proj" failTree pyCfg .ok).summary = .error m)) ∧
    ∃ t, (processFiles "proj" failTree pyCfg .ok).trace =
        t ++ [.finished (processFiles "proj" failTree pyCfg .ok).summary] ∧
      (∀ e ∈ t, e.isFinished = false) ∧
      (OpenResult.ok.isOk = true → Event.closed ∈ t) :=
  c9_terminal "proj" pyCfg failTree .ok

/-- Claim C10: exclude-pattern pruning applies only to subdirectories met
while descending; the root directory itself is always scanned, so even when
the root's base name equals an exclude pattern, its directly contained
matching files are still candidates (and the processed count is computed by
the walk, to which the root's name is never passed). -/
theorem c10_rootNotPruned (rootName : String) (cfg : Config)
    (files : List FileE) (subdirs : DirList)
    (h : rootName ∈ cfg.exclude_patterns) :
    (∀ f ∈ files, isCandidate cfg f.name = true →
      f.name ∈ (candidatesFS cfg "" (FS.node files subdirs)).map
        Candidate.relpath) ∧
    (processFiles rootName (FS.node files subdirs) cfg .ok).summary.filesProcessed
      = some (candidatesFS cfg "" (FS.node files subdirs)).length := by
  refine ⟨?_, processFiles_ok_filesProcessed rootName (FS.node files subdirs) cfg⟩
  intro f hf hc
  rw [candidatesFS, List.map_append]
  apply List.mem_append_left
  rw [List.map_filterMap]
  refine List.mem_filterMap.mpr ⟨f, hf, ?_⟩
  rw [if_pos hc]
  simp [joinPath]

/-- Witness for C10: the root is named `build`, an exclude pattern of
`pyCfg`, yet its direct file `a.py` is still selected. -/
theorem c10_rootNotPruned_witness :
    "build" ∈ pyCfg.exclude_patterns ∧
    ((∀ f ∈ [FileE.mk "a.py" (.ok "x")], isCandidate pyCfg f.name = true →
      f.name ∈ (candidatesFS pyCfg ""
        (FS.node [FileE.mk "a.py" (.ok "x")] .nil)).map Candidate.relpath) ∧
    (processFiles "build" (FS.node [FileE.mk "a.py" (.ok "x")] .nil) pyCfg
        .ok).summary.filesProcessed
      = some (candidatesFS pyCfg ""
          (FS.node [FileE.mk "a.py" (.ok "x")] .nil)).length) :=
  ⟨by decide, c10_rootNotPruned "build" pyCfg [FileE.mk "a.py" (.ok "x")] .nil
    (by decide)⟩
